import Mathlib

/-!
# A verified model of the SSAScoutTool synchronization core

This file gives a shallow embedding, in Lean 4, of the data-reconciliation
core of the SSAScoutTool repository (files `data_aggregator.py`,
`database_manager.py`, `base_scraper.py`) and proves properties of it.

Modelling conventions:
* Python dictionaries are association lists `List (String × α)` preserving
  insertion order; `dget` is first-match lookup, `dset` is in-place
  replace-or-append (matching CPython dict update semantics).
* A Python value is `Val` (string or number); a dict value may be `None`,
  so object entries carry `Option Val`.  `dget o k = none` means the key is
  absent, `dget o k = some none` means the key is present with value `None`.
* Python numbers (int/float) are modelled as `ℚ`; `round(x, 1)` is modelled
  as round-half-even on `ℚ` (Python rounds the nearest binary float; the two
  agree away from decimal ties, and all concrete inputs used below are
  tie-free).
* `str.isdigit` is modelled as `Char.isDigit` (ASCII digits), which agrees
  with CPython on all ASCII input.
* Raising an exception is modelled by `Option`/`Except` error values; code
  paths that raise `IndexError` return `none`/`.error`.
* Wall-clock timestamps are passed explicitly as `ℚ` arguments.
* SQLite tables are modelled as in-memory lists; `INSERT OR REPLACE` on a
  primary key is `dset`, plain `INSERT` is `List.append`.
-/

set_option maxRecDepth 4000

/-- A scalar Python value as it occurs in scraped player records. -/
inductive Val where
  | str (s : String)
  | num (q : ℚ)
deriving DecidableEq, Repr

/-- A Python dict with string keys whose values may be `None`
(`some v` = present non-null, `none` in the entry = present null). -/
abbrev Obj := List (String × Option Val)

/-- First-match lookup in an association list (Python `d[k]` / `k in d`).
`none` means the key is absent. -/
def dget {α : Type} : List (String × α) → String → Option α
  | [], _ => none
  | (k', v) :: rest, k => if k' = k then some v else dget rest k

/-- In-place replace-or-append (Python `d[k] = v`): the first entry with the
key is overwritten in place, otherwise the entry is appended at the end. -/
def dset {α : Type} : List (String × α) → String → α → List (String × α)
  | [], k, v => [(k, v)]
  | (k', v') :: rest, k, v =>
      if k' = k then (k, v) :: rest else (k', v') :: dset rest k v

theorem dget_dset_self {α : Type} (l : List (String × α)) (k : String) (v : α) :
    dget (dset l k v) k = some v := by
  induction l with
  | nil => simp [dget, dset]
  | cons hd tl ih =>
      rcases hd with ⟨k1, v1⟩
      by_cases h : k1 = k
      · simp [dget, dset, h]
      · simp [dget, dset, h, ih]

theorem dget_dset_ne {α : Type} (l : List (String × α)) (k k2 : String) (v : α)
    (h : k2 ≠ k) : dget (dset l k v) k2 = dget l k2 := by
  have hk : ¬ (k = k2) := fun hh => h hh.symm
  induction l with
  | nil => simp [dget, dset, hk]
  | cons hd tl ih =>
      rcases hd with ⟨k1, v1⟩
      by_cases hh : k1 = k
      · subst hh
        simp [dget, dset, hk]
      · by_cases h2 : k1 = k2
        · simp [dget, dset, hh, h2, h]
        · simp [dget, dset, hh, h2, ih]

theorem mem_dset {α : Type} {l : List (String × α)} {k : String} {v : α}
    {x : String × α} (hx : x ∈ dset l k v) : x ∈ l ∨ x = (k, v) := by
  induction l with
  | nil =>
      simp only [dset, List.mem_singleton] at hx
      exact Or.inr hx
  | cons hd tl ih =>
      rcases hd with ⟨k1, v1⟩
      by_cases hh : k1 = k
      · simp only [dset, if_pos hh, List.mem_cons] at hx
        rcases hx with h1 | h1
        · exact Or.inr h1
        · exact Or.inl (List.mem_cons_of_mem _ h1)
      · simp only [dset, if_neg hh, List.mem_cons] at hx
        rcases hx with h1 | h1
        · exact Or.inl (by simp [h1])
        · rcases ih h1 with h2 | h2
          · exact Or.inl (List.mem_cons_of_mem _ h2)
          · exact Or.inr h2

theorem dget_mem {α : Type} {l : List (String × α)} {k : String} {v : α}
    (h : dget l k = some v) : (k, v) ∈ l := by
  induction l with
  | nil => simp [dget] at h
  | cons hd tl ih =>
      rcases hd with ⟨k1, v1⟩
      by_cases hh : k1 = k
      · simp only [dget, if_pos hh, Option.some.injEq] at h
        subst h
        subst hh
        exact List.mem_cons_self _ _
      · simp only [dget, if_neg hh] at h
        exact List.mem_cons_of_mem _ (ih h)

/-! ## Python scalar helpers -/

/-- Python truthiness of a non-`None` scalar value (`if new_data[idf]:`). -/
def pyTruthy : Val → Bool
  | .str s => s ≠ ""
  | .num q => q ≠ 0

/-- Numeric view of a possibly-present dict entry, matching the reads
`merged.get(f, 0)` performed by the merger on numeric fields.  Non-numeric
or missing content reads as `0` (CPython would raise `TypeError` on
strings; the claims below only quantify over numeric content). -/
def vNum : Option (Option Val) → ℚ
  | some (some (.num q)) => q
  | _ => 0

/-- Numeric view of a scalar value. -/
def asNum : Val → ℚ
  | .num q => q
  | .str _ => 0

/-- String view of a possibly-present dict entry, matching
`player.get("name", "")` (a present-but-null or numeric entry reads as the
empty string; CPython would raise on `.lower()` of `None`, which the sync
model surfaces through the same failing path as an empty name). -/
def strD : Option (Option Val) → String
  | some (some (.str s)) => s
  | _ => ""

/-- Round-half-even to the nearest integer (the rounding mode of Python
`round` on exactly representable values). -/
def roundHalfEven (q : ℚ) : ℤ :=
  let f : ℤ := ⌊q⌋
  let r : ℚ := q - (f : ℚ)
  if r < 1/2 then f
  else if 1/2 < r then f + 1
  else if f % 2 = 0 then f else f + 1

/-- Python `round(q, 1)`. -/
def roundTo1 (q : ℚ) : ℚ := ((roundHalfEven (q * 10) : ℤ) : ℚ) / 10

/-- Evaluation rule for `roundHalfEven` below the midpoint. -/
theorem roundHalfEven_eq_down (q : ℚ) (n : ℤ) (h1 : (n : ℚ) ≤ q)
    (h2 : q < (n : ℚ) + 1/2) : roundHalfEven q = n := by
  have hf : ⌊q⌋ = n := by
    rw [Int.floor_eq_iff]
    refine ⟨h1, ?_⟩
    linarith
  simp only [roundHalfEven, hf]
  rw [if_pos (by linarith : q - (n : ℚ) < 1/2)]

/-- Evaluation rule for `roundHalfEven` above the midpoint. -/
theorem roundHalfEven_eq_up (q : ℚ) (n : ℤ) (h1 : (n : ℚ) + 1/2 < q)
    (h2 : q < (n : ℚ) + 1) : roundHalfEven q = n + 1 := by
  have hf : ⌊q⌋ = n := by
    rw [Int.floor_eq_iff]
    refine ⟨by linarith, ?_⟩
    linarith
  have hr : (1 : ℚ)/2 < q - (n : ℚ) := by linarith
  simp only [roundHalfEven, hf]
  rw [if_neg (not_lt.mpr hr.le), if_pos hr]

/-! ## `base_scraper.py`: `parse_number` -/

/-- Integer value of a digit string, as computed by Python `int` on a
nonempty all-digit string. -/
def pyInt (s : String) : ℕ :=
  s.toList.foldl (fun n c => 10 * n + (c.toNat - 48)) 0

/-- `BaseScraper.parse_number`: keep only digit characters and parse them,
returning `default` when no digit remains.  Total, like the Python code
(the `try` around it can only fire on exotic non-ASCII digits, which the
ASCII model excludes). -/
def parse_number (text : String) (default : ℤ) : ℤ :=
  let cleaned : String := ⟨text.toList.filter Char.isDigit⟩
  if cleaned = "" then default else (pyInt cleaned : ℤ)

/-- Specification-side value: the number whose decimal digits are the digit
characters of `text` in order. -/
def digitsConcatVal (text : String) : ℕ :=
  Nat.ofDigits 10 (((text.toList.filter Char.isDigit).map (fun c => c.toNat - 48)).reverse)

theorem pyInt_foldl (l : List Char) (acc : ℕ) :
    l.foldl (fun n c => 10 * n + (c.toNat - 48)) acc
      = acc * 10 ^ l.length + Nat.ofDigits 10 ((l.map (fun c => c.toNat - 48)).reverse) := by
  induction l generalizing acc with
  | nil => simp [Nat.ofDigits]
  | cons c cs ih =>
      simp only [List.foldl_cons, List.length_cons, List.map_cons, List.reverse_cons]
      rw [ih, Nat.ofDigits_append]
      simp [Nat.ofDigits, pow_succ]
      ring

/-! ## `database_manager.py`: the response cache -/

/-- One row of the `cache` table. -/
structure CacheEntry where
  value : String
  expiry : ℚ
deriving DecidableEq, Repr

/-- The `cache` table: `key` is the primary key. -/
abbrev CacheStore := List (String × CacheEntry)

/-- `DatabaseManager.cache_get`: `SELECT value FROM cache WHERE key = ?
AND expiry > ?` with the current time bound as the second parameter. -/
def cache_get (c : CacheStore) (key : String) (now : ℚ) : Option String :=
  match dget c key with
  | some e => if now < e.expiry then some e.value else none
  | none => none

/-- `DatabaseManager.cache_set`: `INSERT OR REPLACE` with
`expiry = now + ttl`. -/
def cache_set (c : CacheStore) (key value : String) (ttl now : ℚ) : CacheStore :=
  dset c key ⟨value, now + ttl⟩

/-! ## `data_aggregator.py`: match keys -/

/-- Python `s.lower()` (ASCII model), character by character. -/
def pyLower (s : String) : String := ⟨s.toList.map Char.toLower⟩

/-- Python `s.strip()`: drop leading and trailing whitespace. -/
def pyStrip (s : String) : String :=
  ⟨((s.toList.dropWhile Char.isWhitespace).reverse.dropWhile
      Char.isWhitespace).reverse⟩

/-- Python `s.lower().strip()`. -/
def pyNorm (s : String) : String := pyStrip (pyLower s)

/-- Helper for `pySplit`: split a character list on whitespace runs,
carrying the (reversed) current token. -/
def splitWsAux : List Char → List Char → List String
  | [], cur => if cur = [] then [] else [⟨cur.reverse⟩]
  | c :: rest, cur =>
      if c.isWhitespace then
        if cur = [] then splitWsAux rest []
        else ⟨cur.reverse⟩ :: splitWsAux rest []
      else splitWsAux rest (c :: cur)

/-- Python `s.split()` with no argument: split on whitespace runs,
discarding empty tokens. -/
def pySplit (s : String) : List String := splitWsAux s.toList []

/-- `DataAggregator._generate_player_key`.  The Python body indexes `n[0]`
on the token list of the normalized name, so an empty or whitespace-only
name raises `IndexError`; this is modelled by `none`. -/
def generate_player_key (name club : String) : Option String :=
  let n := pySplit (pyNorm name)
  match n with
  | [] => none
  | w :: ws =>
      let key_name := if (w :: ws).length > 1 then w ++ "_" ++ (w :: ws).getLastD "" else w
      some (key_name ++ "_" ++ pyNorm club)

/-! ## `data_aggregator.py`: the field merger -/

/-- The `"name"` dict key. -/
def kName : String := "name"

/-- The `"club"` dict key. -/
def kClub : String := "club"

/-- The `"rating"` dict key. -/
def kRating : String := "rating"

/-- The `"market_value"` dict key. -/
def kMarketValue : String := "market_value"

/-- The `"xg"` dict key. -/
def kXg : String := "xg"

/-- The message of the `IndexError` raised by `_generate_player_key` on a
tokenless name. -/
def indexErrorMsg : String := "IndexError: list index out of range"

/-- The one merged record per cluster (the Python dict holds the data
fields together with the reserved keys `league`, `sources`,
`last_updated`; the reserved keys are modelled as structure fields, the
wall-clock `last_updated` is omitted). -/
structure PlayerRec where
  league : String
  sources : List (String × Obj)
  fields : Obj
deriving DecidableEq, Repr

/-- The `fields` list of `_merge_player_info`, in source order. -/
def mergeFieldsList : List String :=
  ["name", "age", "position", "club", "nationality", "market_value",
   "rating", "goals", "assists", "matches", "minutes_played",
   "yellow_cards", "red_cards"]

/-- The per-source external id fields of `_merge_player_info`. -/
def idFieldsList : List String :=
  ["fbref_id", "transfermarkt_id", "sofascore_id", "asa_id"]

/-- The `stats` list of `_merge_player_info`. -/
def statsFieldsList : List String :=
  ["xg", "xa", "xg_per_90", "xa_per_90", "key_passes", "dribbles"]

/-- One iteration of the main field loop of `_merge_player_info`:
market_value takes a running max, rating takes the rounded pairwise mean,
every other field is first-non-null-wins. -/
def stepField (nd : Obj) (acc : Obj) (f : String) : Obj :=
  match dget nd f with
  | some (some v) =>
      if f = "market_value" ∧ (dget acc f).isSome then
        dset acc f (some (.num (max (vNum (dget acc f)) (asNum v))))
      else if f = "rating" ∧ (dget acc f).isSome then
        dset acc f (some (.num (roundTo1 ((vNum (dget acc f) + asNum v) / 2))))
      else if dget acc f = none ∨ dget acc f = some none then
        dset acc f (some v)
      else acc
  | _ => acc

/-- One iteration of the external-id loop: overwrite whenever the new
value is present and truthy. -/
def stepId (nd : Obj) (acc : Obj) (f : String) : Obj :=
  match dget nd f with
  | some (some v) => if pyTruthy v then dset acc f (some v) else acc
  | _ => acc

/-- One iteration of the stats loop: overwrite whenever the new value is
present and non-null. -/
def stepStat (nd : Obj) (acc : Obj) (f : String) : Obj :=
  match dget nd f with
  | some (some v) => dset acc f (some v)
  | _ => acc

/-- `DataAggregator._merge_player_info`. -/
def merge_player_info (merged : PlayerRec) (new_data : Obj) (source : String) :
    PlayerRec :=
  let srcs := dset merged.sources source new_data
  let f1 := mergeFieldsList.foldl (stepField new_data) merged.fields
  let f2 := idFieldsList.foldl (stepId new_data) f1
  let f3 := statsFieldsList.foldl (stepStat new_data) f2
  ⟨merged.league, srcs, f3⟩

/-- Merge one candidate into the cluster map (`for player in players`
body of `_merge_player_data`).  A name whose normalization has no token
makes `_generate_player_key` raise `IndexError`, which aborts the merge. -/
def foldPlayer (league source : String) (m : List (String × PlayerRec))
    (player : Obj) : Except String (List (String × PlayerRec)) :=
  match generate_player_key (strD (dget player kName)) (strD (dget player kClub)) with
  | none => .error indexErrorMsg
  | some key =>
      .ok (dset m key
        (merge_player_info ((dget m key).getD ⟨league, [], []⟩) player source))

/-- Merge all candidates of one source into the cluster map. -/
def mergeSource (league source : String) :
    List Obj → List (String × PlayerRec) → Except String (List (String × PlayerRec))
  | [], m => .ok m
  | player :: ps, m =>
      match foldPlayer league source m player with
      | .error e => .error e
      | .ok m2 => mergeSource league source ps m2

/-- Merge all sources in arrival order (`for source, players in
source_data.items()`). -/
def mergeAll (league : String) :
    List (String × List Obj) → List (String × PlayerRec) →
      Except String (List (String × PlayerRec))
  | [], m => .ok m
  | (source, players) :: rest, m =>
      match mergeSource league source players m with
      | .error e => .error e
      | .ok m2 => mergeAll league rest m2

/-- The post-fold rating back-fill of `_merge_player_data`: when the fold
assigned no rating and the cluster has sources, average the truthy stored
ratings (if any). -/
def ratingFallback (p : PlayerRec) : PlayerRec :=
  if dget p.fields kRating = none ∧ p.sources ≠ [] then
    let ratings := p.sources.filterMap (fun sp =>
      match dget sp.2 kRating with
      | some (some v) => if pyTruthy v then some (asNum v) else none
      | _ => none)
    if ratings ≠ [] then
      let filled := dset p.fields kRating
        (some (.num (roundTo1 (ratings.sum / (ratings.length : ℚ)))))
      { p with fields := filled }
    else p
  else p

/-- `DataAggregator._merge_player_data`. -/
def merge_player_data (source_data : List (String × List Obj)) (league : String) :
    Except String (List PlayerRec) :=
  match mergeAll league source_data [] with
  | .error e => .error e
  | .ok m => .ok (m.map (fun kp => ratingFallback kp.2))

/-- Folding one cluster of candidates, in arrival order, from the empty
initial record — the per-cluster view of `_merge_player_data`. -/
def foldCluster (league : String) (cs : List (String × Obj)) : PlayerRec :=
  cs.foldl (fun m sc => merge_player_info m sc.2 sc.1) ⟨league, [], []⟩

/-! ## `data_aggregator.py` + `database_manager.py`: the sync orchestration -/

/-- The `"all"` source scope used by `sync_league_data` when logging. -/
def kAll : String := "all"

/-- Sync status `"started"`. -/
def kStarted : String := "started"

/-- Sync status `"completed"`. -/
def kCompleted : String := "completed"

/-- Sync status `"failed"`. -/
def kFailed : String := "failed"

/-- One row of the `sync_history` table. -/
structure SyncLogRow where
  league : String
  source : String
  status : String
  records_synced : ℕ
  error_message : Option String
  started_at : ℚ
  completed_at : ℚ
deriving DecidableEq, Repr

/-- `DatabaseManager.log_sync`: a plain `INSERT` that appends one new row
whose `started_at` and `completed_at` are both the insert-time
`CURRENT_TIMESTAMP` (here the explicit `now`). -/
def log_sync (ledger : List SyncLogRow) (league source status : String)
    (records : ℕ) (error : Option String) (now : ℚ) : List SyncLogRow :=
  ledger ++ [⟨league, source, status, records, error, now, now⟩]

/-- One configured source adapter as `sync_league_data` sees it: the
futures-dict key (for example `fbref`), the display name passed to
`_fetch_with_error_handling` (for example `FBref`), and the terminal
outcome of its `scrape_league` call. -/
structure Adapter where
  key : String
  displayName : String
  fetch : Except String (List Obj)
deriving Repr

/-- `DataAggregator._fetch_with_error_handling`: a successful fetch
returns its data with no error, a raising fetch returns `[]` with the
formatted error message. -/
def fetch_with_error_handling (a : Adapter) : List Obj × Option String :=
  match a.fetch with
  | .ok d => (d, none)
  | .error e => ([], some ("Failed to fetch from " ++ a.displayName ++ ": " ++ e))

/-- The `source_data` map accumulated by the fetch loop. -/
def sourceData (adapters : List Adapter) : List (String × List Obj) :=
  adapters.map (fun a => (a.key, (fetch_with_error_handling a).1))

/-- The `results["errors"]` entries appended by the fetch loop. -/
def fetchErrors (adapters : List Adapter) : List String :=
  adapters.filterMap (fun a =>
    ((fetch_with_error_handling a).2).map (fun e => a.key ++ ": " ++ e))

/-- The `results["sources"]` per-source record counts recorded for
non-failing adapters. -/
def sourceCounts (adapters : List Adapter) : List (String × ℕ) :=
  adapters.filterMap (fun a =>
    if ((fetch_with_error_handling a).2).isNone then
      some (a.key, (fetch_with_error_handling a).1.length)
    else none)

/-- The outcome dict returned by `sync_league_data` (the keys of the
Python `results` dict; `duration` is derivable from the two timestamps
and omitted). `completed_at = none` models the key being absent. -/
structure SyncResults where
  league : String
  started_at : ℚ
  sources : List (String × ℕ)
  total_players : ℕ
  errors : List String
  completed_at : Option ℚ
deriving DecidableEq, Repr

/-- `DataAggregator.sync_league_data`, modelled as a deterministic fold
over the configured adapters and their terminal fetch outcomes (the
thread pool joins every future, so each adapter contributes exactly one
outcome; `t0` and `t1` are the wall-clock times of the two `log_sync`
calls).  Database persistence is modelled by returning the merged
records; an exception escaping the merge (the `IndexError` of
`_generate_player_key`) takes the `except` path, which logs a `failed`
row, appends the fatal message to `errors`, and returns the results dict
without touching `completed_at`. -/
def sync_league_data (league : String) (adapters : List Adapter) (t0 t1 : ℚ)
    (ledger : List SyncLogRow) :
    SyncResults × List SyncLogRow × List PlayerRec :=
  let ledger1 := log_sync ledger league kAll kStarted 0 none t0
  match merge_player_data (sourceData adapters) league with
  | .ok merged =>
      (⟨league, t0, sourceCounts adapters, merged.length,
         fetchErrors adapters, some t1⟩,
       log_sync ledger1 league kAll kCompleted merged.length none t1,
       merged)
  | .error e =>
      (⟨league, t0, sourceCounts adapters, 0,
         fetchErrors adapters ++ [("Sync failed: " ++ e)], none⟩,
       log_sync ledger1 league kAll kFailed 0 (some e) t1,
       [])

/-! ## Key-preservation machinery for the merge fold -/

theorem dget_stepField_ne (nd acc : Obj) (f k : String) (h : k ≠ f) :
    dget (stepField nd acc f) k = dget acc k := by
  unfold stepField
  cases hv : dget nd f with
  | none => rfl
  | some ov =>
      cases ov with
      | none => rfl
      | some v =>
          dsimp only
          split_ifs <;> first | rfl | exact dget_dset_ne _ _ _ _ h

theorem dget_stepId_ne (nd acc : Obj) (f k : String) (h : k ≠ f) :
    dget (stepId nd acc f) k = dget acc k := by
  unfold stepId
  cases hv : dget nd f with
  | none => rfl
  | some ov =>
      cases ov with
      | none => rfl
      | some v =>
          dsimp only
          split_ifs <;> first | rfl | exact dget_dset_ne _ _ _ _ h

theorem dget_stepStat_ne (nd acc : Obj) (f k : String) (h : k ≠ f) :
    dget (stepStat nd acc f) k = dget acc k := by
  unfold stepStat
  cases hv : dget nd f with
  | none => rfl
  | some ov =>
      cases ov with
      | none => rfl
      | some v => exact dget_dset_ne _ _ _ _ h

theorem foldl_stepField_notMem (nd : Obj) (fs : List String) (acc : Obj)
    (k : String) (h : ¬ k ∈ fs) :
    dget (fs.foldl (stepField nd) acc) k = dget acc k := by
  induction fs generalizing acc with
  | nil => rfl
  | cons f fs ih =>
      simp only [List.mem_cons, not_or] at h
      rw [List.foldl_cons, ih _ h.2, dget_stepField_ne nd acc f k h.1]

theorem foldl_stepId_notMem (nd : Obj) (fs : List String) (acc : Obj)
    (k : String) (h : ¬ k ∈ fs) :
    dget (fs.foldl (stepId nd) acc) k = dget acc k := by
  induction fs generalizing acc with
  | nil => rfl
  | cons f fs ih =>
      simp only [List.mem_cons, not_or] at h
      rw [List.foldl_cons, ih _ h.2, dget_stepId_ne nd acc f k h.1]

theorem foldl_stepStat_notMem (nd : Obj) (fs : List String) (acc : Obj)
    (k : String) (h : ¬ k ∈ fs) :
    dget (fs.foldl (stepStat nd) acc) k = dget acc k := by
  induction fs generalizing acc with
  | nil => rfl
  | cons f fs ih =>
      simp only [List.mem_cons, not_or] at h
      rw [List.foldl_cons, ih _ h.2, dget_stepStat_ne nd acc f k h.1]

/-- Effect of the main field loop at the `market_value` key. -/
theorem dget_stepField_mv (nd acc : Obj) :
    dget (stepField nd acc kMarketValue) kMarketValue =
      match dget nd kMarketValue with
      | some (some v) =>
          if (dget acc kMarketValue).isSome then
            some (some (.num (max (vNum (dget acc kMarketValue)) (asNum v))))
          else some (some v)
      | _ => dget acc kMarketValue := by
  unfold stepField
  cases hv : dget nd kMarketValue with
  | none => rfl
  | some ov =>
      cases ov with
      | none => rfl
      | some v =>
          dsimp only
          by_cases hs : (dget acc kMarketValue).isSome
          · rw [if_pos ⟨rfl, hs⟩, if_pos hs, dget_dset_self]
          · rw [if_neg (fun hc => hs hc.2), if_neg hs,
              if_neg (fun hc : kMarketValue = "rating" ∧ _ => by
                exact absurd hc.1 (by decide)),
              if_pos (Or.inl (Option.not_isSome_iff_eq_none.mp hs)),
              dget_dset_self]

/-- Effect of the main field loop at the `rating` key. -/
theorem dget_stepField_rating (nd acc : Obj) :
    dget (stepField nd acc kRating) kRating =
      match dget nd kRating with
      | some (some v) =>
          if (dget acc kRating).isSome then
            some (some (.num (roundTo1 ((vNum (dget acc kRating) + asNum v) / 2))))
          else some (some v)
      | _ => dget acc kRating := by
  unfold stepField
  cases hv : dget nd kRating with
  | none => rfl
  | some ov =>
      cases ov with
      | none => rfl
      | some v =>
          dsimp only
          by_cases hs : (dget acc kRating).isSome
          · rw [if_neg (fun hc : kRating = "market_value" ∧ _ => by
                exact absurd hc.1 (by decide)),
              if_pos ⟨rfl, hs⟩, if_pos hs, dget_dset_self]
          · rw [if_neg (fun hc : kRating = "market_value" ∧ _ => by
                exact absurd hc.1 (by decide)),
              if_neg (fun hc => hs hc.2), if_neg hs,
              if_pos (Or.inl (Option.not_isSome_iff_eq_none.mp hs)),
              dget_dset_self]

/-- Effect of one whole `_merge_player_info` call at the `market_value`
key: a running maximum once present, plain assignment on first sight. -/
theorem merge_info_mv (m : PlayerRec) (nd : Obj) (src : String) :
    dget (merge_player_info m nd src).fields kMarketValue =
      match dget nd kMarketValue with
      | some (some v) =>
          if (dget m.fields kMarketValue).isSome then
            some (some (.num (max (vNum (dget m.fields kMarketValue)) (asNum v))))
          else some (some v)
      | _ => dget m.fields kMarketValue := by
  show dget (statsFieldsList.foldl (stepStat nd)
      (idFieldsList.foldl (stepId nd)
        (mergeFieldsList.foldl (stepField nd) m.fields))) kMarketValue = _
  rw [foldl_stepStat_notMem nd _ _ _ (by decide),
    foldl_stepId_notMem nd _ _ _ (by decide),
    show mergeFieldsList
        = ["name", "age", "position", "club", "nationality"]
          ++ kMarketValue :: ["rating", "goals", "assists", "matches",
              "minutes_played", "yellow_cards", "red_cards"] from rfl,
    List.foldl_append, List.foldl_cons,
    foldl_stepField_notMem nd _ _ _ (by decide),
    dget_stepField_mv,
    foldl_stepField_notMem nd _ _ _ (by decide)]

/-- Effect of one whole `_merge_player_info` call at the `rating` key:
the rounded pairwise mean once present, plain assignment on first sight. -/
theorem merge_info_rating (m : PlayerRec) (nd : Obj) (src : String) :
    dget (merge_player_info m nd src).fields kRating =
      match dget nd kRating with
      | some (some v) =>
          if (dget m.fields kRating).isSome then
            some (some (.num (roundTo1 ((vNum (dget m.fields kRating) + asNum v) / 2))))
          else some (some v)
      | _ => dget m.fields kRating := by
  show dget (statsFieldsList.foldl (stepStat nd)
      (idFieldsList.foldl (stepId nd)
        (mergeFieldsList.foldl (stepField nd) m.fields))) kRating = _
  rw [foldl_stepStat_notMem nd _ _ _ (by decide),
    foldl_stepId_notMem nd _ _ _ (by decide),
    show mergeFieldsList
        = ["name", "age", "position", "club", "nationality", "market_value"]
          ++ kRating :: ["goals", "assists", "matches",
              "minutes_played", "yellow_cards", "red_cards"] from rfl,
    List.foldl_append, List.foldl_cons,
    foldl_stepField_notMem nd _ _ _ (by decide),
    dget_stepField_rating,
    foldl_stepField_notMem nd _ _ _ (by decide)]

/-! ## Claim C4: `market_value` is a running maximum -/

/-- The non-null numeric `market_value` entries of a candidate list, in
fold order. -/
def mvList (cs : List (String × Obj)) : List ℚ :=
  cs.filterMap (fun sc =>
    match dget sc.2 kMarketValue with
    | some (some (Val.num q)) => some q
    | _ => none)

/-- A candidate is well-typed at `market_value` when the entry, if present
and non-null, is numeric (a string there would make the Python `max` raise
`TypeError`). -/
def wtMV (c : Obj) : Bool :=
  match dget c kMarketValue with
  | some (some (.str _)) => false
  | _ => true

theorem le_foldl_max_init (l : List ℚ) (a : ℚ) : a ≤ l.foldl max a := by
  induction l generalizing a with
  | nil => exact le_refl a
  | cons b l ih => exact le_trans (le_max_left a b) (ih (max a b))

theorem mem_le_foldl_max (l : List ℚ) (a b : ℚ) (h : b ∈ l) :
    b ≤ l.foldl max a := by
  induction l generalizing a with
  | nil => cases h
  | cons c l ih =>
      rcases List.mem_cons.mp h with rfl | h2
      · exact le_trans (le_max_right a b) (le_foldl_max_init l (max a b))
      · exact ih (max a c) h2

theorem foldCluster_mv_go (cs : List (String × Obj)) (m : PlayerRec)
    (hwt : ∀ sc ∈ cs, wtMV sc.2 = true) :
    (dget m.fields kMarketValue = none →
        dget ((cs.foldl (fun m2 sc => merge_player_info m2 sc.2 sc.1) m)).fields
            kMarketValue
          = match mvList cs with
            | [] => none
            | q :: qs => some (some (.num (qs.foldl max q))))
  ∧ (∀ q0, dget m.fields kMarketValue = some (some (.num q0)) →
        dget ((cs.foldl (fun m2 sc => merge_player_info m2 sc.2 sc.1) m)).fields
            kMarketValue
          = some (some (.num ((mvList cs).foldl max q0)))) := by
  induction cs generalizing m with
  | nil => exact ⟨fun h => by simpa [mvList] using h, fun q0 h => by simpa [mvList] using h⟩
  | cons sc cs ih =>
      have hwtc : wtMV sc.2 = true := hwt sc (List.mem_cons_self _ _)
      have hwt2 : ∀ x ∈ cs, wtMV x.2 = true :=
        fun x hx => hwt x (List.mem_cons_of_mem _ hx)
      constructor
      · intro hm
        rw [List.foldl_cons]
        cases hv : dget sc.2 kMarketValue with
        | none =>
            have hstep : dget (merge_player_info m sc.2 sc.1).fields kMarketValue = none := by
              rw [merge_info_mv, hv, hm]
            have := (ih (merge_player_info m sc.2 sc.1) hwt2).1 hstep
            rw [this]
            simp only [mvList, List.filterMap_cons, hv]
        | some ov =>
            cases ov with
            | none =>
                have hstep : dget (merge_player_info m sc.2 sc.1).fields kMarketValue = none := by
                  rw [merge_info_mv, hv, hm]
                have := (ih (merge_player_info m sc.2 sc.1) hwt2).1 hstep
                rw [this]
                simp only [mvList, List.filterMap_cons, hv]
            | some v =>
                cases v with
                | str s => exact absurd hwtc (by simp [wtMV, hv])
                | num q =>
                    have hstep : dget (merge_player_info m sc.2 sc.1).fields kMarketValue
                        = some (some (.num q)) := by
                      rw [merge_info_mv, hv, hm]
                      rfl
                    have := (ih (merge_player_info m sc.2 sc.1) hwt2).2 q hstep
                    rw [this]
                    simp only [mvList, List.filterMap_cons, hv]
      · intro q0 hm
        rw [List.foldl_cons]
        cases hv : dget sc.2 kMarketValue with
        | none =>
            have hstep : dget (merge_player_info m sc.2 sc.1).fields kMarketValue
                = some (some (.num q0)) := by
              rw [merge_info_mv, hv, hm]
            have := (ih (merge_player_info m sc.2 sc.1) hwt2).2 q0 hstep
            rw [this]
            simp only [mvList, List.filterMap_cons, hv]
        | some ov =>
            cases ov with
            | none =>
                have hstep : dget (merge_player_info m sc.2 sc.1).fields kMarketValue
                    = some (some (.num q0)) := by
                  rw [merge_info_mv, hv, hm]
                have := (ih (merge_player_info m sc.2 sc.1) hwt2).2 q0 hstep
                rw [this]
                simp only [mvList, List.filterMap_cons, hv]
            | some v =>
                cases v with
                | str s => exact absurd hwtc (by simp [wtMV, hv])
                | num q =>
                    have hstep : dget (merge_player_info m sc.2 sc.1).fields kMarketValue
                        = some (some (.num (max q0 q))) := by
                      rw [merge_info_mv, hv, hm]
                      rfl
                    have := (ih (merge_player_info m sc.2 sc.1) hwt2).2 (max q0 q) hstep
                    rw [this]
                    simp only [mvList, List.filterMap_cons, hv, List.foldl_cons]

/-- C4 (confirmed): over any cluster of well-typed candidates, the merged
`market_value` equals the running maximum of the non-null `market_value`
values folded so far; it never decreases when further candidates are
folded, and every contributing value is bounded by the final merged
value. -/
theorem market_value_running_max (league : String) (cs : List (String × Obj))
    (hwt : ∀ sc ∈ cs, wtMV sc.2 = true) :
    (dget (foldCluster league cs).fields kMarketValue
        = match mvList cs with
          | [] => none
          | q :: qs => some (some (.num (qs.foldl max q))))
  ∧ (∀ q ∈ mvList cs, ∃ r, dget (foldCluster league cs).fields kMarketValue
        = some (some (.num r)) ∧ q ≤ r)
  ∧ (∀ ds : List (String × Obj), (∀ sc ∈ ds, wtMV sc.2 = true) →
      ∀ r, dget (foldCluster league cs).fields kMarketValue = some (some (.num r)) →
        ∃ r2, dget (foldCluster league (cs ++ ds)).fields kMarketValue
            = some (some (.num r2)) ∧ r ≤ r2) := by
  simp only [foldCluster]
  have hbase : dget (PlayerRec.mk league [] []).fields kMarketValue = none := rfl
  have hchar := (foldCluster_mv_go cs (PlayerRec.mk league [] []) hwt).1 hbase
  refine ⟨hchar, ?_, ?_⟩
  · intro q hq
    cases hl : mvList cs with
    | nil => rw [hl] at hq; cases hq
    | cons q1 qs =>
        refine ⟨qs.foldl max q1, ?_, ?_⟩
        · rw [hchar, hl]
        · rw [hl] at hq
          rcases List.mem_cons.mp hq with rfl | h2
          · exact le_foldl_max_init qs q
          · exact mem_le_foldl_max qs q1 q h2
  · intro ds hds r hr
    refine ⟨(mvList ds).foldl max r, ?_, le_foldl_max_init _ _⟩
    rw [List.foldl_append]
    exact (foldCluster_mv_go ds _ hds).2 r hr

/-- League name used by concrete witness inputs. -/
def tLeague : String := "MLS"

/-- A generic source tag for concrete merge steps. -/
def srcA : String := "s1"

/-- A second source tag for concrete merge steps. -/
def srcB : String := "s2"

/-- Witness cluster for C4: two candidates with market values 5 and 3. -/
def mvWitnessCluster : List (String × Obj) :=
  [(srcA, [("name", some (.str "A B")), ("market_value", some (.num 5))]),
   (srcB, [("name", some (.str "A B")), ("market_value", some (.num 3))])]

/-- Witness for C4 at a concrete cluster: folding market values 5 then 3
yields the running maximum 5. -/
theorem market_value_running_max_witness :
    dget (foldCluster tLeague mvWitnessCluster).fields kMarketValue
      = some (some (.num 5)) := by
  have h := (market_value_running_max tLeague mvWitnessCluster (by decide)).1
  rw [h]
  decide

/-! ## Claim C1: the rating recurrence -/

/-- A merged record whose rating is 7.1, as left by a first fold step. -/
def ratingRecA : PlayerRec :=
  ⟨"L", [], [("rating", some (.num (71/10)))]⟩

/-- A candidate carrying rating 7.24. -/
def ratingCandB : Obj := [("rating", some (.num (181/25)))]

/-- Helper: the rating branch of the merge at a step where both ratings
are present and numeric. -/
theorem merge_info_rating_pairwise (m : PlayerRec) (nd : Obj) (src : String)
    (r v : ℚ)
    (hm : dget m.fields kRating = some (some (.num r)))
    (hn : dget nd kRating = some (some (.num v))) :
    dget (merge_player_info m nd src).fields kRating
      = some (some (.num (roundTo1 ((r + v) / 2)))) := by
  rw [merge_info_rating, hn, hm]
  simp [vNum, asNum]

/-- Helper: the concrete rounding evaluation behind the C1 counterexample:
the pairwise mean of 7.1 and 7.24 is 7.17, which the code rounds to 7.2. -/
theorem roundTo1_mean_71_724 : roundTo1 (((71 : ℚ)/10 + 181/25) / 2) = 36/5 := by
  unfold roundTo1
  rw [show (((71 : ℚ)/10 + 181/25) / 2) * 10 = 717/10 by norm_num,
    roundHalfEven_eq_up (717/10) 71 (by norm_num) (by norm_num)]
  norm_num

/-- C1 counterexample: folding rating 7.24 into a merged rating of 7.1
produces 7.2, not the exact pairwise mean 7.17 — the code applies
`round(..., 1)` on top of the recurrence, so the merged rating is not
`(merged_previous + new) / 2`. -/
theorem rating_exact_mean_counterexample :
    dget (merge_player_info ratingRecA ratingCandB srcB).fields kRating
        = some (some (.num (36/5)))
  ∧ (36/5 : ℚ) ≠ ((71 : ℚ)/10 + 181/25) / 2 := by
  constructor
  · rw [merge_info_rating_pairwise ratingRecA ratingCandB srcB (71/10) (181/25) rfl rfl,
      roundTo1_mean_71_724]
  · norm_num

/-- C1 amended: at every fold step in which a previously merged rating
`r` and a new non-null numeric rating `v` are both present, the merged
rating becomes `round((r + v) / 2, 1)` — the pairwise mean rounded to one
decimal place, with no other transformation. -/
theorem rating_pairwise_mean_rounded (m : PlayerRec) (nd : Obj) (src : String)
    (r v : ℚ)
    (hm : dget m.fields kRating = some (some (.num r)))
    (hn : dget nd kRating = some (some (.num v))) :
    dget (merge_player_info m nd src).fields kRating
      = some (some (.num (roundTo1 ((r + v) / 2)))) :=
  merge_info_rating_pairwise m nd src r v hm hn

/-- A merged record whose rating is 7, for the C1 witness. -/
def ratingRecW : PlayerRec := ⟨"L", [], [("rating", some (.num 7))]⟩

/-- A candidate carrying rating 8, for the C1 witness. -/
def ratingCandW : Obj := [("rating", some (.num 8))]

/-- Witness for the amended C1 at concrete ratings 7 and 8. -/
theorem rating_pairwise_mean_rounded_witness :
    dget (merge_player_info ratingRecW ratingCandW srcA).fields kRating
      = some (some (.num (roundTo1 ((7 + 8) / 2)))) :=
  rating_pairwise_mean_rounded ratingRecW ratingCandW srcA 7 8 rfl rfl

/-! ## Claim C6: first-non-null versus last-non-null fields -/

/-- Effect of the main field loop at a field that is neither
`market_value` nor `rating`: first non-null value wins. -/
theorem dget_stepField_plain (nd acc : Obj) (f : String)
    (hmv : f ≠ "market_value") (hr : f ≠ "rating") :
    dget (stepField nd acc f) f
      = match dget nd f with
        | some (some v) =>
            if dget acc f = none ∨ dget acc f = some none
            then some (some v) else dget acc f
        | _ => dget acc f := by
  unfold stepField
  cases hv : dget nd f with
  | none => rfl
  | some ov =>
      cases ov with
      | none => rfl
      | some v =>
          dsimp only
          rw [if_neg (fun hc => hmv hc.1), if_neg (fun hc => hr hc.1)]
          split_ifs with hcond
          · exact dget_dset_self _ _ _
          · rfl

/-- Effect of the stats loop at its own field: the new non-null value
always overwrites. -/
theorem dget_stepStat_self (nd acc : Obj) (f : String) :
    dget (stepStat nd acc f) f
      = match dget nd f with
        | some (some v) => some (some v)
        | _ => dget acc f := by
  unfold stepStat
  cases hv : dget nd f with
  | none => rfl
  | some ov =>
      cases ov with
      | none => rfl
      | some v => exact dget_dset_self _ _ _

/-- Effect of one whole `_merge_player_info` call at a plain scalar field
of the main field list: first non-null value wins. -/
theorem merge_info_plain (m : PlayerRec) (nd : Obj) (src : String)
    (f : String) (pre post : List String)
    (hsplit : mergeFieldsList = pre ++ f :: post)
    (hpre : ¬ f ∈ pre) (hpost : ¬ f ∈ post)
    (hmv : f ≠ "market_value") (hr : f ≠ "rating")
    (hid : ¬ f ∈ idFieldsList) (hst : ¬ f ∈ statsFieldsList) :
    dget (merge_player_info m nd src).fields f
      = match dget nd f with
        | some (some v) =>
            if dget m.fields f = none ∨ dget m.fields f = some none
            then some (some v) else dget m.fields f
        | _ => dget m.fields f := by
  show dget (statsFieldsList.foldl (stepStat nd)
      (idFieldsList.foldl (stepId nd)
        (mergeFieldsList.foldl (stepField nd) m.fields))) f = _
  rw [foldl_stepStat_notMem nd _ _ _ hst, foldl_stepId_notMem nd _ _ _ hid,
    hsplit, List.foldl_append, List.foldl_cons,
    foldl_stepField_notMem nd post _ _ hpost,
    dget_stepField_plain nd _ f hmv hr,
    foldl_stepField_notMem nd pre _ _ hpre]

/-- Effect of one whole `_merge_player_info` call at a stats field:
the last non-null value wins. -/
theorem merge_info_stat (m : PlayerRec) (nd : Obj) (src : String)
    (f : String) (pre post : List String)
    (hsplit : statsFieldsList = pre ++ f :: post)
    (hpre : ¬ f ∈ pre) (hpost : ¬ f ∈ post)
    (hmerge : ¬ f ∈ mergeFieldsList) (hid : ¬ f ∈ idFieldsList) :
    dget (merge_player_info m nd src).fields f
      = match dget nd f with
        | some (some v) => some (some v)
        | _ => dget m.fields f := by
  show dget (statsFieldsList.foldl (stepStat nd)
      (idFieldsList.foldl (stepId nd)
        (mergeFieldsList.foldl (stepField nd) m.fields))) f = _
  rw [hsplit, List.foldl_append, List.foldl_cons,
    foldl_stepStat_notMem nd post _ _ hpost,
    dget_stepStat_self nd _ f,
    foldl_stepStat_notMem nd pre _ _ hpre,
    foldl_stepId_notMem nd _ _ _ hid,
    foldl_stepField_notMem nd _ _ _ hmerge]

/-- The scalar fields of the main field list other than `market_value`
and `rating`. -/
def plainScalarFields : List String :=
  ["name", "age", "position", "club", "nationality", "goals", "assists",
   "matches", "minutes_played", "yellow_cards", "red_cards"]

/-- A cluster record holding `xg = 1`, as left by folding a first
candidate. -/
def xgCandA : Obj := [("name", some (.str "A B")), ("xg", some (.num 1))]

/-- A later candidate carrying `xg = 2`. -/
def xgCandB : Obj := [("name", some (.str "A B")), ("xg", some (.num 2))]

/-- C6 counterexample: the statistical field `xg` is NOT first-non-null:
after folding `xg = 1`, folding a later candidate with `xg = 2` leaves the
merged value 2, so the later non-null value is not discarded. -/
theorem stats_first_wins_counterexample :
    dget (merge_player_info (merge_player_info ⟨"L", [], []⟩ xgCandA srcA)
        xgCandB srcB).fields kXg = some (some (.num 2))
  ∧ dget (merge_player_info ⟨"L", [], []⟩ xgCandA srcA).fields kXg
        = some (some (.num 1))
  ∧ ((2 : ℚ) = 1 → False) := by decide

/-- C6 amended: at every fold step, for the plain scalar fields of the
main field list (name, age, position, club, nationality, goals, assists,
matches, minutes_played, yellow_cards, red_cards) the first non-null
value wins and later non-null values are discarded; for the statistical
fields (xg, xa, xg_per_90, xa_per_90, key_passes, dribbles) every new
non-null value overwrites, so the LAST non-null value wins. -/
theorem scalar_field_merge_rules (m : PlayerRec) (nd : Obj) (src : String)
    (f : String) (h : f ∈ plainScalarFields ∨ f ∈ statsFieldsList) :
    dget (merge_player_info m nd src).fields f
      = if f ∈ statsFieldsList then
          (match dget nd f with
           | some (some v) => some (some v)
           | _ => dget m.fields f)
        else
          (match dget nd f with
           | some (some v) =>
               if dget m.fields f = none ∨ dget m.fields f = some none
               then some (some v) else dget m.fields f
           | _ => dget m.fields f) := by
  rcases h with h | h
  · simp only [plainScalarFields, List.mem_cons, List.not_mem_nil, or_false] at h
    rcases h with rfl | rfl | rfl | rfl | rfl | rfl | rfl | rfl | rfl | rfl | rfl
    · rw [if_neg (by decide)]
      exact merge_info_plain m nd src _ []
        ["age", "position", "club", "nationality", "market_value", "rating",
         "goals", "assists", "matches", "minutes_played", "yellow_cards",
         "red_cards"] rfl (by decide) (by decide) (by decide) (by decide)
        (by decide) (by decide)
    · rw [if_neg (by decide)]
      exact merge_info_plain m nd src _ ["name"]
        ["position", "club", "nationality", "market_value", "rating",
         "goals", "assists", "matches", "minutes_played", "yellow_cards",
         "red_cards"] rfl (by decide) (by decide) (by decide) (by decide)
        (by decide) (by decide)
    · rw [if_neg (by decide)]
      exact merge_info_plain m nd src _ ["name", "age"]
        ["club", "nationality", "market_value", "rating", "goals",
         "assists", "matches", "minutes_played", "yellow_cards",
         "red_cards"] rfl (by decide) (by decide) (by decide) (by decide)
        (by decide) (by decide)
    · rw [if_neg (by decide)]
      exact merge_info_plain m nd src _ ["name", "age", "position"]
        ["nationality", "market_value", "rating", "goals", "assists",
         "matches", "minutes_played", "yellow_cards", "red_cards"] rfl
        (by decide) (by decide) (by decide) (by decide) (by decide) (by decide)
    · rw [if_neg (by decide)]
      exact merge_info_plain m nd src _ ["name", "age", "position", "club"]
        ["market_value", "rating", "goals", "assists", "matches",
         "minutes_played", "yellow_cards", "red_cards"] rfl (by decide)
        (by decide) (by decide) (by decide) (by decide) (by decide)
    · rw [if_neg (by decide)]
      exact merge_info_plain m nd src _
        ["name", "age", "position", "club", "nationality", "market_value",
         "rating"]
        ["assists", "matches", "minutes_played", "yellow_cards", "red_cards"]
        rfl (by decide) (by decide) (by decide) (by decide) (by decide)
        (by decide)
    · rw [if_neg (by decide)]
      exact merge_info_plain m nd src _
        ["name", "age", "position", "club", "nationality", "market_value",
         "rating", "goals"]
        ["matches", "minutes_played", "yellow_cards", "red_cards"] rfl
        (by decide) (by decide) (by decide) (by decide) (by decide) (by decide)
    · rw [if_neg (by decide)]
      exact merge_info_plain m nd src _
        ["name", "age", "position", "club", "nationality", "market_value",
         "rating", "goals", "assists"]
        ["minutes_played", "yellow_cards", "red_cards"] rfl (by decide)
        (by decide) (by decide) (by decide) (by decide) (by decide)
    · rw [if_neg (by decide)]
      exact merge_info_plain m nd src _
        ["name", "age", "position", "club", "nationality", "market_value",
         "rating", "goals", "assists", "matches"]
        ["yellow_cards", "red_cards"] rfl (by decide) (by decide) (by decide)
        (by decide) (by decide) (by decide)
    · rw [if_neg (by decide)]
      exact merge_info_plain m nd src _
        ["name", "age", "position", "club", "nationality", "market_value",
         "rating", "goals", "assists", "matches", "minutes_played"]
        ["red_cards"] rfl (by decide) (by decide) (by decide) (by decide)
        (by decide) (by decide)
    · rw [if_neg (by decide)]
      exact merge_info_plain m nd src _
        ["name", "age", "position", "club", "nationality", "market_value",
         "rating", "goals", "assists", "matches", "minutes_played",
         "yellow_cards"] [] rfl (by decide) (by decide) (by decide)
        (by decide) (by decide) (by decide)
  · rw [if_pos h]
    simp only [statsFieldsList, List.mem_cons, List.not_mem_nil, or_false] at h
    rcases h with rfl | rfl | rfl | rfl | rfl | rfl
    · exact merge_info_stat m nd src _ []
        ["xa", "xg_per_90", "xa_per_90", "key_passes", "dribbles"] rfl
        (by decide) (by decide) (by decide) (by decide)
    · exact merge_info_stat m nd src _ ["xg"]
        ["xg_per_90", "xa_per_90", "key_passes", "dribbles"] rfl
        (by decide) (by decide) (by decide) (by decide)
    · exact merge_info_stat m nd src _ ["xg", "xa"]
        ["xa_per_90", "key_passes", "dribbles"] rfl (by decide) (by decide)
        (by decide) (by decide)
    · exact merge_info_stat m nd src _ ["xg", "xa", "xg_per_90"]
        ["key_passes", "dribbles"] rfl (by decide) (by decide) (by decide)
        (by decide)
    · exact merge_info_stat m nd src _ ["xg", "xa", "xg_per_90", "xa_per_90"]
        ["dribbles"] rfl (by decide) (by decide) (by decide) (by decide)
    · exact merge_info_stat m nd src _
        ["xg", "xa", "xg_per_90", "xa_per_90", "key_passes"] [] rfl
        (by decide) (by decide) (by decide) (by decide)

/-- A cluster record already holding `xg = 1`, for the C6 witness. -/
def xgRecW : PlayerRec := ⟨"L", [], [("xg", some (.num 1))]⟩

/-- Witness for the amended C6 at the concrete stats field `xg`. -/
theorem scalar_field_merge_rules_witness :
    dget (merge_player_info xgRecW xgCandB srcB).fields kXg
      = if kXg ∈ statsFieldsList then
          (match dget xgCandB kXg with
           | some (some v) => some (some v)
           | _ => dget xgRecW.fields kXg)
        else
          (match dget xgCandB kXg with
           | some (some v) =>
               if dget xgRecW.fields kXg = none ∨ dget xgRecW.fields kXg = some none
               then some (some v) else dget xgRecW.fields kXg
           | _ => dget xgRecW.fields kXg) :=
  scalar_field_merge_rules xgRecW xgCandB srcB kXg (Or.inr (by decide))

/-! ## Claim C5: match-key derivation -/

/-- The empty player name. -/
def emptyName : String := ""

/-- A whitespace-only player name. -/
def blankName : String := "   "

/-- A concrete club for key-generation tests. -/
def clubFC : String := "FC Dallas"

/-- C5 counterexample: an empty (or whitespace-only) name does not
produce a key — `_generate_player_key` indexes `n[0]` on an empty token
list and raises `IndexError`, modelled by `none`. -/
theorem key_empty_name_counterexample :
    generate_player_key emptyName clubFC = none
  ∧ generate_player_key blankName clubFC = none := by decide

/-- C5 amended: whenever the normalized name has at least one token the
key derivation succeeds deterministically — first and last token joined
by `_` when there is more than one token, the single token otherwise,
concatenated with the normalized club (an empty club is handled); but an
empty or whitespace-only name raises `IndexError` instead of producing a
key. -/
theorem generate_player_key_tokens (name club : String) (t : String)
    (ts : List String) (h : pySplit (pyNorm name) = t :: ts) :
    generate_player_key name club
      = some ((if ts = [] then t else t ++ "_" ++ ts.getLastD t)
          ++ "_" ++ pyNorm club) := by
  simp only [generate_player_key, h]
  cases ts with
  | nil => simp
  | cons a as =>
      rw [if_pos (by simp), if_neg (by simp : ¬ (a :: as = ([] : List String))),
        List.getLastD_cons]

/-- A two-token name for the C5 witness. -/
def nameJohn : String := "John Smith"

/-- First token of the normalized witness name. -/
def tokJohn : String := "john"

/-- Last token of the normalized witness name. -/
def tokSmith : String := "smith"

/-- Witness for the amended C5 at a concrete two-token name. -/
theorem generate_player_key_tokens_witness :
    generate_player_key nameJohn clubFC
      = some ((if ([tokSmith] : List String) = [] then tokJohn
               else tokJohn ++ "_" ++ ([tokSmith] : List String).getLastD tokJohn)
          ++ "_" ++ pyNorm clubFC) :=
  generate_player_key_tokens nameJohn clubFC tokJohn [tokSmith] (by decide)

/-! ## Claim C10: `parse_number` -/

/-- Helper: closed form of `parse_number` — the digit-concatenation value
when a digit is present, the default otherwise. -/
theorem parse_number_eq (text : String) (d : ℤ) :
    parse_number text d
      = if text.toList.filter Char.isDigit = [] then d
        else ((digitsConcatVal text : ℕ) : ℤ) := by
  by_cases hl : text.toList.filter Char.isDigit = []
  · have he : (⟨text.toList.filter Char.isDigit⟩ : String) = "" := by
      rw [hl]
    rw [if_pos hl]
    simp only [parse_number]
    rw [if_pos he]
  · have hne : (⟨text.toList.filter Char.isDigit⟩ : String) ≠ "" := by
      intro hc
      exact hl (congrArg String.data hc)
    rw [if_neg hl]
    simp only [parse_number, if_neg hne]
    unfold pyInt digitsConcatVal
    rw [show (⟨text.toList.filter Char.isDigit⟩ : String).toList
        = text.toList.filter Char.isDigit from rfl, pyInt_foldl]
    simp

/-- The string `"-5"`. -/
def sNeg5 : String := "-5"

/-- The string `"3.7"`. -/
def s37 : String := "3.7"

/-- A digitless string. -/
def sAbc : String := "abc"

/-- C10 (confirmed): `parse_number` returns the number formed by the
digit characters of the input in order — ignoring a minus sign and a
decimal point — as a natural number cast to an integer (hence
non-negative); when the input has no digit it returns the supplied
default; it is a total function, so it never raises.  In particular
`parse_number "-5" = 5` and `parse_number "3.7" = 37`. -/
theorem parse_number_digit_concat :
    (∀ text d, parse_number text d
        = if text.toList.filter Char.isDigit = [] then d
          else ((digitsConcatVal text : ℕ) : ℤ))
  ∧ (∀ text d, text.toList.any Char.isDigit = true → 0 ≤ parse_number text d)
  ∧ parse_number sNeg5 0 = 5
  ∧ parse_number s37 0 = 37
  ∧ parse_number sAbc 7 = 7 := by
  refine ⟨parse_number_eq, ?_, by decide, by decide, by decide⟩
  intro text d h
  rw [parse_number_eq]
  rw [if_neg]
  · exact Int.natCast_nonneg _
  · intro hc
    rcases List.any_eq_true.mp h with ⟨c, hc1, hc2⟩
    have : c ∈ text.toList.filter Char.isDigit := List.mem_filter.mpr ⟨hc1, hc2⟩
    rw [hc] at this
    cases this

/-- Witness for C10: `"3.7"` contains a digit and parses non-negatively. -/
theorem parse_number_digit_concat_witness :
    s37.toList.any Char.isDigit = true ∧ 0 ≤ parse_number s37 0 :=
  ⟨by decide, parse_number_digit_concat.2.1 s37 0 (by decide)⟩

/-! ## Claim C8: cache TTL semantics -/

/-- C8 (confirmed): `cache_get` returns the stored value iff an entry for
the key is present with expiry strictly in the future; and after a
`cache_set` with TTL `ttl` at time `t0`, a read of the same key at time
`t` returns the stored value exactly when `t < t0 + ttl` — within the
window it returns the value, at or strictly after expiry it reports
absent. -/
theorem cache_ttl_correct :
    (∀ (c : CacheStore) (k : String) (now : ℚ) (v : String),
        cache_get c k now = some v
          ↔ ∃ e : CacheEntry, dget c k = some e ∧ e.value = v ∧ now < e.expiry)
  ∧ (∀ (c : CacheStore) (k v : String) (ttl t0 t : ℚ),
        cache_get (cache_set c k v ttl t0) k t
          = if t < t0 + ttl then some v else none) := by
  constructor
  · intro c k now v
    unfold cache_get
    cases he : dget c k with
    | none =>
        simp only
        constructor
        · intro hc
          cases hc
        · rintro ⟨e, he2, _, _⟩
          cases he2
    | some e =>
        simp only
        by_cases ht : now < e.expiry
        · rw [if_pos ht]
          constructor
          · intro hv
            injection hv with hv
            exact ⟨e, rfl, hv, ht⟩
          · rintro ⟨e2, he2, hv, _⟩
            injection he2 with he2
            subst he2
            rw [hv]
        · rw [if_neg ht]
          constructor
          · intro hc
            cases hc
          · rintro ⟨e2, he2, _, ht2⟩
            injection he2 with he2
            subst he2
            exact absurd ht2 ht
  · intro c k v ttl t0 t
    unfold cache_get cache_set
    rw [dget_dset_self]

/-! ## Claim C7: the rating back-fill -/

/-- A candidate supplies no direct rating when its `rating` entry is
absent or null. -/
def noDirectRating (c : Obj) : Bool :=
  match dget c kRating with
  | some (some _) => false
  | _ => true

/-- Merging a candidate with no direct rating never changes the merged
`rating` entry. -/
theorem merge_rating_none (m : PlayerRec) (nd : Obj) (src : String)
    (h : noDirectRating nd = true) :
    dget (merge_player_info m nd src).fields kRating = dget m.fields kRating := by
  rw [merge_info_rating]
  unfold noDirectRating at h
  cases hv : dget nd kRating with
  | none => rfl
  | some ov =>
      cases ov with
      | none => rfl
      | some v => rw [hv] at h; simp at h

/-- The merge step stores the raw candidate under its source key. -/
theorem merge_sources_eq (m : PlayerRec) (nd : Obj) (src : String) :
    (merge_player_info m nd src).sources = dset m.sources src nd := rfl

/-- Invariant for C7: every cluster record in the map has no merged
rating and only rating-free stored source records. -/
def NoRatingInv (m : List (String × PlayerRec)) : Prop :=
  ∀ kp ∈ m, dget kp.2.fields kRating = none
    ∧ ∀ so ∈ kp.2.sources, noDirectRating so.2 = true

theorem foldPlayer_noRating (league source : String)
    (m m2 : List (String × PlayerRec)) (player : Obj)
    (hp : noDirectRating player = true) (hm : NoRatingInv m)
    (h : foldPlayer league source m player = .ok m2) : NoRatingInv m2 := by
  unfold foldPlayer at h
  cases hk : generate_player_key (strD (dget player kName)) (strD (dget player kClub)) with
  | none => rw [hk] at h; cases h
  | some key =>
      rw [hk] at h
      injection h with h
      subst h
      intro kp hkp
      rcases mem_dset hkp with hin | rfl
      · exact hm kp hin
      · have hbase : dget ((dget m key).getD ⟨league, [], []⟩).fields kRating = none
            ∧ ∀ so ∈ ((dget m key).getD ⟨league, [], []⟩).sources,
                noDirectRating so.2 = true := by
          cases hb : dget m key with
          | none =>
              refine ⟨rfl, ?_⟩
              intro so hso
              cases hso
          | some rec => exact hm (key, rec) (dget_mem hb)
        constructor
        · rw [merge_rating_none _ _ _ hp]
          exact hbase.1
        · intro so hso
          rw [merge_sources_eq] at hso
          rcases mem_dset hso with hin | rfl
          · exact hbase.2 so hin
          · exact hp

theorem mergeSource_noRating (league source : String) (players : List Obj)
    (m m2 : List (String × PlayerRec))
    (hps : ∀ c ∈ players, noDirectRating c = true) (hm : NoRatingInv m)
    (h : mergeSource league source players m = .ok m2) : NoRatingInv m2 := by
  induction players generalizing m with
  | nil =>
      unfold mergeSource at h
      injection h with h
      subst h
      exact hm
  | cons p ps ih =>
      unfold mergeSource at h
      cases hf : foldPlayer league source m p with
      | error e => rw [hf] at h; cases h
      | ok m3 =>
          rw [hf] at h
          exact ih m3 (fun c hc => hps c (List.mem_cons_of_mem _ hc))
            (foldPlayer_noRating league source m m3 p
              (hps p (List.mem_cons_self _ _)) hm hf) h

theorem mergeAll_noRating (league : String)
    (source_data : List (String × List Obj))
    (m m2 : List (String × PlayerRec))
    (hnr : ∀ sp ∈ source_data, ∀ c ∈ sp.2, noDirectRating c = true)
    (hm : NoRatingInv m)
    (h : mergeAll league source_data m = .ok m2) : NoRatingInv m2 := by
  induction source_data generalizing m with
  | nil =>
      unfold mergeAll at h
      injection h with h
      subst h
      exact hm
  | cons sp rest ih =>
      rcases sp with ⟨source, players⟩
      unfold mergeAll at h
      cases hs : mergeSource league source players m with
      | error e => rw [hs] at h; cases h
      | ok m3 =>
          rw [hs] at h
          exact ih m3 (fun x hx => hnr x (List.mem_cons_of_mem _ hx))
            (mergeSource_noRating league source players m m3
              (hnr (source, players) (List.mem_cons_self _ _)) hm hs) h

/-- When no stored source record holds a non-null rating, the back-fill
computes an empty ratings list and leaves the record unchanged, so the
merged record still has no rating. -/
theorem ratingFallback_noRating (p : PlayerRec)
    (h1 : dget p.fields kRating = none)
    (h2 : ∀ so ∈ p.sources, noDirectRating so.2 = true) :
    dget (ratingFallback p).fields kRating = none := by
  have hratings : p.sources.filterMap (fun sp =>
      match dget sp.2 kRating with
      | some (some v) => if pyTruthy v then some (asNum v) else none
      | _ => none) = [] := by
    rw [List.filterMap_eq_nil_iff]
    intro sp hsp
    have hnd := h2 sp hsp
    unfold noDirectRating at hnd
    cases hr : dget sp.2 kRating with
    | none => rfl
    | some ov =>
        cases ov with
        | none => rfl
        | some v => rw [hr] at hnd; simp at hnd
  have hfix : ratingFallback p = p := by
    unfold ratingFallback
    rw [hratings]
    simp
  rw [hfix]
  exact h1

/-- C7 amended: the back-fill branch is unreachable.  If no folded
candidate of the sync supplies a non-null rating, then no stored source
record holds a non-null rating either (the stored records are exactly the
folded candidates), so the computed ratings list is always empty, no
fallback rating is ever assigned, and every merged record ends without a
rating. -/
theorem rating_fallback_unreachable (league : String)
    (source_data : List (String × List Obj)) (l : List PlayerRec)
    (hnr : ∀ sp ∈ source_data, ∀ c ∈ sp.2, noDirectRating c = true)
    (hok : merge_player_data source_data league = .ok l) :
    ∀ p ∈ l, dget p.fields kRating = none := by
  unfold merge_player_data at hok
  cases hall : mergeAll league source_data [] with
  | error e => rw [hall] at hok; cases hok
  | ok mm =>
      rw [hall] at hok
      injection hok with hok
      subst hok
      have hinv : NoRatingInv mm := by
        refine mergeAll_noRating league source_data [] mm hnr ?_ hall
        intro kp hkp
        cases hkp
      intro p hp
      rcases List.mem_map.mp hp with ⟨kp, hkp, rfl⟩
      exact ratingFallback_noRating kp.2 (hinv kp hkp).1 (hinv kp hkp).2

/-- A candidate whose `rating` key is present but null. -/
def ratingNullCand : Obj := [("name", some (.str "A B")), ("rating", none)]

/-- C7 counterexample: a cluster whose lone stored source record carries
a (null) `rating` key while no candidate supplied a non-null rating —
after folding, no fallback rating is assigned: the merged record has no
`rating` field at all, because the back-fill filters out every stored
rating that is not truthy, and such ratings cannot exist when none was
folded. -/
theorem rating_fallback_counterexample :
    (merge_player_data [(srcA, [ratingNullCand])] tLeague).toOption
        = some [⟨tLeague, [(srcA, ratingNullCand)],
            [("name", some (.str "A B"))]⟩]
  ∧ dget ratingNullCand kRating = some none := by decide

/-- Witness for the amended C7 at the same concrete cluster: its one
merged record carries no rating. -/
theorem rating_fallback_unreachable_witness :
    dget (PlayerRec.mk tLeague [(srcA, ratingNullCand)]
        [("name", some (.str "A B"))]).fields kRating = none :=
  rating_fallback_unreachable tLeague [(srcA, [ratingNullCand])]
    [⟨tLeague, [(srcA, ratingNullCand)], [("name", some (.str "A B"))]⟩]
    (by decide) rfl
    (PlayerRec.mk tLeague [(srcA, ratingNullCand)] [("name", some (.str "A B"))])
    (List.mem_singleton.mpr rfl)

/-! ## Claim C2: the sync always returns an outcome -/

/-- A candidate with an empty name, which makes the merge phase raise. -/
def badPlayer : Obj := [("name", some (.str "")), ("club", some (.str "FC X"))]

/-- An adapter whose fetch succeeds but returns the degenerate player. -/
def adFBref : Adapter := ⟨"fbref", "FBref", .ok [badPlayer]⟩

/-- C2 counterexample: a sync hit by an orchestration-level failure (the
merge phase raising `IndexError`) returns an outcome whose `errors` list
is populated with the fatal entry but whose `completed_at` is ABSENT —
the code only assigns `results["completed_at"]` on the success path,
after the point where any exception is raised. -/
theorem sync_fatal_counterexample :
    ((sync_league_data tLeague [adFBref] 0 1 []).1).completed_at = none
  ∧ ((sync_league_data tLeague [adFBref] 0 1 []).1).errors
      = [("Sync failed: " ++ indexErrorMsg)] := by decide

/-- C2 amended: every sync invocation returns an outcome object (never
only a raised exception); its `errors` list is always populated — the
per-source fetch errors, plus a `Sync failed:` entry on a fatal
orchestration failure — but `completed_at` is populated only when the
merge-and-persist phase succeeds, and is absent from a fatal outcome. -/
theorem sync_always_returns (league : String) (adapters : List Adapter)
    (t0 t1 : ℚ) (ledger : List SyncLogRow) :
    ((sync_league_data league adapters t0 t1 ledger).1).completed_at
        = (match merge_player_data (sourceData adapters) league with
           | .ok _ => some t1
           | .error _ => none)
  ∧ ((sync_league_data league adapters t0 t1 ledger).1).errors
        = (match merge_player_data (sourceData adapters) league with
           | .ok _ => fetchErrors adapters
           | .error e => fetchErrors adapters ++ [("Sync failed: " ++ e)])
  ∧ ((sync_league_data league adapters t0 t1 ledger).1).league = league
  ∧ ((sync_league_data league adapters t0 t1 ledger).1).started_at = t0 := by
  unfold sync_league_data
  cases merge_player_data (sourceData adapters) league <;> simp

/-! ## Claim C9: the sync ledger -/

/-- C9 counterexample: a successful sync leaves TWO ledger rows, not one
finalized row — the `started` row is never updated (its status stays
`started`, its terminal fields stay at their insert-time values, and both
its timestamps equal the start instant), and a second, independent
`completed` row is appended. -/
theorem sync_ledger_counterexample :
    (sync_league_data tLeague [] 0 1 []).2.1
        = [⟨tLeague, kAll, kStarted, 0, none, 0, 0⟩,
           ⟨tLeague, kAll, kCompleted, 0, none, 1, 1⟩]
  ∧ ((sync_league_data tLeague [] 0 1 []).2.1).length ≠ 1 := by decide

/-- C9 amended: every sync appends exactly two rows to the ledger — a
`started` row at sync start and a terminal row (`completed` or `failed`)
at sync end; no existing row is ever mutated (the ledger grows by
appending only), the started row is never finalized, and each row's
`started_at` and `completed_at` both equal its own insert time. -/
theorem sync_ledger_two_appends (league : String) (adapters : List Adapter)
    (t0 t1 : ℚ) (ledger : List SyncLogRow) :
    ∃ row : SyncLogRow,
      (sync_league_data league adapters t0 t1 ledger).2.1
          = ledger ++ [⟨league, kAll, kStarted, 0, none, t0, t0⟩, row]
        ∧ (row.status = kCompleted ∨ row.status = kFailed)
        ∧ row.started_at = t1 ∧ row.completed_at = t1 := by
  unfold sync_league_data
  cases hm : merge_player_data (sourceData adapters) league with
  | ok merged =>
      refine ⟨⟨league, kAll, kCompleted, merged.length, none, t1, t1⟩,
        ?_, Or.inl rfl, rfl, rfl⟩
      simp [log_sync]
  | error e =>
      refine ⟨⟨league, kAll, kFailed, 0, some e, t1, t1⟩,
        ?_, Or.inr rfl, rfl, rfl⟩
      simp [log_sync]

/-! ## Claim C3: source isolation -/

/-- A source contributing no players is a no-op for the merge fold. -/
theorem mergeAll_skip_empty (league : String)
    (xs ys : List (String × List Obj)) (k : String)
    (m : List (String × PlayerRec)) :
    mergeAll league (xs ++ (k, []) :: ys) m = mergeAll league (xs ++ ys) m := by
  induction xs generalizing m with
  | nil => simp [mergeAll, mergeSource]
  | cons x xs ih =>
      rcases x with ⟨source, players⟩
      simp only [List.cons_append, mergeAll]
      cases hms : mergeSource league source players m with
      | error e => rfl
      | ok m2 => exact ih m2

/-- `_merge_player_data` ignores a source whose candidate list is empty. -/
theorem merge_player_data_skip_empty (league : String)
    (xs ys : List (String × List Obj)) (k : String) :
    merge_player_data (xs ++ (k, []) :: ys) league
      = merge_player_data (xs ++ ys) league := by
  unfold merge_player_data
  rw [mergeAll_skip_empty]

theorem fetchErrors_append (l1 l2 : List Adapter) :
    fetchErrors (l1 ++ l2) = fetchErrors l1 ++ fetchErrors l2 := by
  simp [fetchErrors, List.filterMap_append]

/-- Adapters whose fetches all succeed contribute no error entries. -/
theorem fetchErrors_ok (l : List Adapter)
    (h : ∀ a ∈ l, ∃ d, a.fetch = .ok d) : fetchErrors l = [] := by
  induction l with
  | nil => rfl
  | cons a rest ih =>
      rcases h a (List.mem_cons_self _ _) with ⟨d, hd⟩
      have hfa : fetch_with_error_handling a = (d, none) := by
        rw [fetch_with_error_handling, hd]
      show List.filterMap _ (a :: rest) = []
      rw [List.filterMap_cons]
      simp only [hfa, Option.map_none]
      exact ih (fun x hx => h x (List.mem_cons_of_mem _ hx))

/-- C3 (with the proviso that the merge phase itself succeeds): when
exactly one adapter's fetch raises and all other adapters succeed, the
sync still merges and persists the successful sources' records, the
outcome's error list has exactly one entry naming the failing source,
and the sync is logged `completed`, not `failed`. -/
theorem sync_source_isolation (league : String) (pre post : List Adapter)
    (bad : Adapter) (e : String) (t0 t1 : ℚ) (ledger : List SyncLogRow)
    (l : List PlayerRec)
    (hbad : bad.fetch = .error e)
    (hpre : ∀ a ∈ pre, ∃ d, a.fetch = .ok d)
    (hpost : ∀ a ∈ post, ∃ d, a.fetch = .ok d)
    (hmerge : merge_player_data (sourceData (pre ++ post)) league = .ok l) :
    ((sync_league_data league (pre ++ bad :: post) t0 t1 ledger).1).errors
        = [bad.key ++ ": " ++ ("Failed to fetch from " ++ bad.displayName ++ ": " ++ e)]
  ∧ ((sync_league_data league (pre ++ bad :: post) t0 t1 ledger).1).errors.length = 1
  ∧ (sync_league_data league (pre ++ bad :: post) t0 t1 ledger).2.2 = l
  ∧ ((sync_league_data league (pre ++ bad :: post) t0 t1 ledger).1).total_players
      = l.length
  ∧ (sync_league_data league (pre ++ bad :: post) t0 t1 ledger).2.1
      = ledger ++ [⟨league, kAll, kStarted, 0, none, t0, t0⟩,
          ⟨league, kAll, kCompleted, l.length, none, t1, t1⟩] := by
  have hsd : sourceData (pre ++ bad :: post)
      = sourceData pre ++ (bad.key, ([] : List Obj)) :: sourceData post := by
    simp [sourceData, fetch_with_error_handling, hbad]
  have hsd2 : sourceData pre ++ sourceData post = sourceData (pre ++ post) := by
    simp [sourceData]
  have hmerge2 : merge_player_data (sourceData (pre ++ bad :: post)) league
      = .ok l := by
    rw [hsd, merge_player_data_skip_empty, hsd2, hmerge]
  have hbadfe : fetchErrors (bad :: post)
      = (bad.key ++ ": " ++ ("Failed to fetch from " ++ bad.displayName ++ ": " ++ e))
          :: fetchErrors post := by
    show List.filterMap _ (bad :: post) = _
    rw [List.filterMap_cons]
    simp only [fetch_with_error_handling, hbad, Option.map_some]
    rfl
  have herr : fetchErrors (pre ++ bad :: post)
      = [bad.key ++ ": " ++ ("Failed to fetch from " ++ bad.displayName ++ ": " ++ e)] := by
    rw [fetchErrors_append, fetchErrors_ok pre hpre, hbadfe,
      fetchErrors_ok post hpost]
    rfl
  unfold sync_league_data
  rw [hmerge2]
  refine ⟨herr, ?_, rfl, rfl, ?_⟩
  · show (fetchErrors (pre ++ bad :: post)).length = 1
    rw [herr]
    rfl
  · simp [log_sync]

/-- A well-formed candidate for the C3 witness. -/
def okPlayer : Obj :=
  [("name", some (.str "John Smith")), ("club", some (.str "FC X"))]

/-- A succeeding adapter for the C3 witness. -/
def adOk : Adapter := ⟨"fbref", "FBref", .ok [okPlayer]⟩

/-- The error text of the failing witness adapter. -/
def errTimeout : String := "timeout"

/-- A failing adapter for the C3 witness. -/
def adBad : Adapter := ⟨"sofascore", "Sofascore", .error errTimeout⟩

/-- The canonical records the witness sync derives from its one
successful source. -/
def mergedOk : List PlayerRec :=
  [⟨tLeague, [("fbref", okPlayer)],
    [("name", some (.str "John Smith")), ("club", some (.str "FC X"))]⟩]

/-- Witness for C3: one of two adapters fails; the outcome has exactly
one error entry and the records derived from the successful source. -/
theorem sync_source_isolation_witness :
    ((sync_league_data tLeague [adOk, adBad] 0 1 []).1).errors.length = 1
  ∧ (sync_league_data tLeague [adOk, adBad] 0 1 []).2.2 = mergedOk := by
  have h := sync_source_isolation tLeague [adOk] [] adBad errTimeout 0 1 []
    mergedOk rfl
    (fun a ha => by
      rw [List.mem_singleton] at ha
      subst ha
      exact ⟨[okPlayer], rfl⟩)
    (fun a ha => absurd ha (List.not_mem_nil a))
    rfl
  exact ⟨h.2.1, h.2.2.1⟩

/-- C3 counterexample: with two configured adapters of which exactly one
raises during fetch, the sync is NOT guaranteed to complete with a single
error — if a successful source carries a degenerate (empty-name) record,
the merge phase raises, the outcome carries two errors, and the sync is
logged `failed`. -/
theorem source_isolation_counterexample :
    ((sync_league_data tLeague [adFBref, adBad] 0 1 []).1).errors.length = 2
  ∧ (sync_league_data tLeague [adFBref, adBad] 0 1 []).2.1
      = [⟨tLeague, kAll, kStarted, 0, none, 0, 0⟩,
         ⟨tLeague, kAll, kFailed, 0, some indexErrorMsg, 1, 1⟩] := by decide
